import Mathlib

/-!
Shallow embedding of the deterministic scheduling core of the
`ai-scheduling-agent` repository:

* `SlotRecommender` (`src/intelligence/slotRecommender.ts`) — multi-factor
  slot scoring and ranking;
* `PreferenceEngine` — preference learning from historical bookings;
* `ConflictResolver` — conflict detection and rule-based resolution.

Modelling conventions, used uniformly below:

* Timestamps are minutes since the Unix epoch (`Nat`); the JavaScript
  `Date` accessors `getHours`/`getDay` become arithmetic on that value
  (the epoch fell on a Thursday, hence the `+ 4` weekday offset).
* JavaScript numbers are modelled as `ℚ`.  Note that in JavaScript
  `x / 0` is `Infinity`/`NaN` while in `ℚ` it is `0`; every claim that
  depends on a quotient carries a positivity hypothesis on the divisor.
* `Array.prototype.sort` with a comparator (stable since ES2019) is
  modelled by the stable `List.mergeSort`; a comparator
  `(a, b) => b.k - a.k` corresponds to the Boolean relation
  `fun a b => b.k ≤ a.k` (strictly larger keys first, ties keep input
  order).
* A JavaScript object with integer-like keys enumerates its
  `Object.entries` in ascending numeric key order; `keysAsc` models that.
* Optional TypeScript fields become `Option`; fields that the engine
  always populates (`confidence`, `updatedAt`) are modelled as required.
  Metadata fields never read by the embedded algorithms (`meetingId`,
  `leadTime`, `createdAt`, `metadata`, conflict `metadata`) are omitted.
-/

namespace Sched

/-- Hour of day of a timestamp in minutes since the epoch; models
`new Date(t).getHours()`. -/
def getHours (t : Nat) : Nat := t / 60 % 24

/-- Weekday of a timestamp (0 = Sunday); models `new Date(t).getDay()`. -/
def getDay (t : Nat) : Nat := (t / 1440 + 4) % 7

/-- Two-digit decimal rendering of an hour, as produced by
`toString().padStart(2, '0')`. -/
def pad2 (n : Nat) : String :=
  if n < 10 then ("0") ++ toString n else toString n

/-- Renders an hour as an `HH:MM` string with zero minutes. -/
def hhmm (h : Nat) : String := pad2 h ++ (":00")

/-- Hour component of an `HH:MM` string; models
`parseInt(s.split(':')[0])` (on malformed strings the JavaScript original
yields `NaN`; the model yields `0`, which no claim depends on). -/
def parseHour (s : String) : Nat :=
  ((s.takeWhile (fun c => c ≠ ':')).toNat?).getD 0

/-- Participant record (`{ id, name, email }`). -/
structure Interviewer where
  id : String
  name : String
  email : String
deriving DecidableEq

/-- Load information attached to a raw slot. -/
structure LoadInfo where
  currentLoad : Nat
  maxLoad : Nat
deriving DecidableEq

/-- Raw slot from the scheduling engine (`RawSlot`); `startTime`/`endTime`
are the parsed ISO timestamps. -/
structure RawSlot where
  id : String
  startTime : Nat
  endTime : Nat
  interviewers : List Interviewer
  loadInfo : Option LoadInfo
deriving DecidableEq

/-- A preferred time range (`{ start: "HH:MM", end: "HH:MM" }`); the
TypeScript field `end` is modelled as `stop` (`end` is a Lean keyword). -/
structure TimeRange where
  start : String
  stop : String
deriving DecidableEq

/-- An avoided day/time entry of a preference profile. -/
structure AvoidedTime where
  dayOfWeek : Option Nat
  timeRange : Option TimeRange
  reason : Option String
deriving DecidableEq

/-- Learned scheduling preferences (`SchedulingPreferences`). -/
structure SchedulingPreferences where
  userId : String
  preferredDays : Option (List Nat)
  preferredTimeRanges : Option (List TimeRange)
  avoidedTimes : Option (List AvoidedTime)
  preferredBreakMinutes : Option Nat
  maxInterviewsPerDay : Option Nat
  preferredDuration : Option Nat
  timezone : Option String
  confidence : ℚ
  updatedAt : Nat
deriving DecidableEq

/-- One historical booking record (`SchedulingHistory`). -/
structure SchedulingHistory where
  participants : List String
  scheduledTime : Nat
  duration : Nat
  dayOfWeek : Nat
  hourOfDay : Nat
  successful : Bool
  satisfaction : Option ℚ
  rescheduled : Bool
deriving DecidableEq

/-- The six named scoring factors, each intended to lie in `[0, 1]`. -/
structure ScoringFactors where
  preferenceMatch : ℚ
  loadBalance : ℚ
  timeOfDay : ℚ
  dayOfWeek : ℚ
  pastSuccess : ℚ
  participantSatisfaction : ℚ
deriving DecidableEq

/-- A scored slot recommendation (`SmartSlotRecommendation`). -/
structure SmartSlotRecommendation where
  slotId : String
  startTime : Nat
  endTime : Nat
  interviewers : List Interviewer
  score : ℚ
  reasons : List String
  factors : ScoringFactors
deriving DecidableEq

/-- The private fields of the `SlotRecommender` class that the scoring
path reads.  The constructor arguments `preferences`/`history` are
optional arrays; the code only ever tests `!xs || xs.length === 0`, so
`undefined` and `[]` behave identically and both are modelled as `[]`. -/
structure RecommenderState where
  preferences : List SchedulingPreferences
  history : List SchedulingHistory
deriving DecidableEq

/-- Per-profile contribution inside `scorePreferenceMatch`: `+0.5` when the
weekday is among the preferred days, `+0.5` when the hour falls inside some
preferred range (inclusive start hour, exclusive end hour, first match
breaks the loop), capped by `Math.min(score, 1.0)`. -/
def prefScore (dayOfWeek hourOfDay : Nat) (pref : SchedulingPreferences) : ℚ :=
  let dayPart : ℚ :=
    match pref.preferredDays with
    | some ds => if dayOfWeek ∈ ds then 0.5 else 0
    | none => 0
  let timePart : ℚ :=
    match pref.preferredTimeRanges with
    | some ranges =>
      if ranges.any (fun r =>
          decide (parseHour r.start ≤ hourOfDay) && decide (hourOfDay < parseHour r.stop))
      then 0.5 else 0
    | none => 0
  min (dayPart + timePart) 1

/-- Average of the per-profile contributions; `0.5` when no profiles were
supplied (`scorePreferenceMatch`).  The loop's `totalScore` accumulator is
the sum of the per-profile contributions and its `count` is the number of
profiles. -/
def scorePreferenceMatch (st : RecommenderState) (dayOfWeek hourOfDay : Nat) : ℚ :=
  if st.preferences.isEmpty then 0.5
  else if 0 < st.preferences.length then
    (st.preferences.map (prefScore dayOfWeek hourOfDay)).sum / (st.preferences.length : ℚ)
  else 0.5

/-- Load-balance factor: `1 - currentLoad / maxLoad`, default `0.7` without
load information (`scoreLoadBalance`).  No clamping is performed. -/
def scoreLoadBalance (slot : RawSlot) : ℚ :=
  match slot.loadInfo with
  | none => 0.7
  | some li => 1 - (li.currentLoad : ℚ) / (li.maxLoad : ℚ)

/-- Piecewise time-of-day factor (`scoreTimeOfDay`). -/
def scoreTimeOfDay (hourOfDay : Nat) : ℚ :=
  if 9 ≤ hourOfDay ∧ hourOfDay < 12 then 0.9
  else if 14 ≤ hourOfDay ∧ hourOfDay < 17 then 0.8
  else if 17 ≤ hourOfDay ∧ hourOfDay < 19 then 0.5
  else if 12 ≤ hourOfDay ∧ hourOfDay < 14 then 0.4
  else if 6 ≤ hourOfDay ∧ hourOfDay < 9 then 0.3
  else 0.2

/-- Piecewise day-of-week factor (`scoreDayOfWeek`). -/
def scoreDayOfWeek (dayOfWeek : Nat) : ℚ :=
  if 2 ≤ dayOfWeek ∧ dayOfWeek ≤ 4 then 0.9
  else if dayOfWeek = 5 then 0.7
  else if dayOfWeek = 1 then 0.6
  else 0.1

/-- History records on the same weekday within ±1 hour of the slot (the
`similarSlots` filter of `scorePastSuccess`). -/
def similarSlots (st : RecommenderState) (dayOfWeek hourOfDay : Nat) : List SchedulingHistory :=
  st.history.filter (fun h =>
    decide (h.dayOfWeek = dayOfWeek) && decide (((h.hourOfDay : ℤ) - (hourOfDay : ℤ)).natAbs ≤ 1))

/-- Success rate among history records on the same weekday within ±1 hour;
`0.5` without history or without matching records (`scorePastSuccess`). -/
def scorePastSuccess (st : RecommenderState) (dayOfWeek hourOfDay : Nat) : ℚ :=
  if st.history.isEmpty then 0.5
  else if (similarSlots st dayOfWeek hourOfDay).isEmpty then 0.5
  else
    (((similarSlots st dayOfWeek hourOfDay).filter (fun h => h.successful)).length : ℚ)
      / ((similarSlots st dayOfWeek hourOfDay).length : ℚ)

/-- The normalized satisfaction samples collected by
`scoreParticipantSatisfaction`'s nested loops: for each interviewer, each
history record whose participants include the interviewer's email and whose
`satisfaction` field is truthy (present and non-zero) contributes
`satisfaction / 5`. -/
def satisfactionTerms (st : RecommenderState) (interviewers : List Interviewer) : List ℚ :=
  interviewers.flatMap (fun iv =>
    (st.history.filter (fun h => h.participants.contains iv.email)).filterMap (fun h =>
      match h.satisfaction with
      | some s => if s = 0 then none else some (s / 5)
      | none => none))

/-- Average normalized satisfaction, `0.5` when no history was supplied or
no sample was found (`scoreParticipantSatisfaction`); the loop's
`totalSatisfaction` and `count` are the sum and length of
`satisfactionTerms`. -/
def scoreParticipantSatisfaction (st : RecommenderState) (interviewers : List Interviewer) : ℚ :=
  if st.history.isEmpty then 0.5
  else if 0 < (satisfactionTerms st interviewers).length then
    (satisfactionTerms st interviewers).sum / ((satisfactionTerms st interviewers).length : ℚ)
  else 0.5

/-- The six factors of a slot (`calculateFactors`). -/
def calculateFactors (st : RecommenderState) (slot : RawSlot) : ScoringFactors :=
  let dayOfWeek := getDay slot.startTime
  let hourOfDay := getHours slot.startTime
  { preferenceMatch := scorePreferenceMatch st dayOfWeek hourOfDay
    loadBalance := scoreLoadBalance slot
    timeOfDay := scoreTimeOfDay hourOfDay
    dayOfWeek := scoreDayOfWeek dayOfWeek
    pastSuccess := scorePastSuccess st dayOfWeek hourOfDay
    participantSatisfaction := scoreParticipantSatisfaction st slot.interviewers }

/-- Fixed weighted combination of the six factors used by `scoreSlot`. -/
def weightedScore (f : ScoringFactors) : ℚ :=
  f.preferenceMatch * 0.30 + f.loadBalance * 0.25 + f.timeOfDay * 0.15
    + f.dayOfWeek * 0.10 + f.pastSuccess * 0.15 + f.participantSatisfaction * 0.05

/-- Human-readable reason tags (`generateReasons`); the threshold tests and
texts mirror the source, with a generic fallback when nothing fires. -/
def generateReasons (f : ScoringFactors) : List String :=
  let reasons :=
    (if 0.7 < f.preferenceMatch then [("Matches participant time preferences")] else [])
      ++ (if 0.7 < f.loadBalance then [("Good interviewer load distribution")] else [])
      ++ (if 0.8 < f.timeOfDay then [("Optimal time of day for interviews")] else [])
      ++ (if 0.8 < f.dayOfWeek then [("Preferred day of week")] else [])
      ++ (if 0.7 < f.pastSuccess then
            [(toString (round (f.pastSuccess * 100)) ++ ("% historical success rate"))] else [])
      ++ (if 0.7 < f.participantSatisfaction then
            [("High interviewer satisfaction history")] else [])
  if reasons.isEmpty then [("Available slot with acceptable conditions")] else reasons

/-- Scores a single slot (`scoreSlot`). -/
def scoreSlot (st : RecommenderState) (slot : RawSlot) : SmartSlotRecommendation :=
  let factors := calculateFactors st slot
  { slotId := slot.id
    startTime := slot.startTime
    endTime := slot.endTime
    interviewers := slot.interviewers
    score := weightedScore factors
    reasons := generateReasons factors
    factors := factors }

/-- Relation corresponding to the comparator `(a, b) => b.score - a.score`:
higher scores first; a stable sort under this total preorder keeps ties in
input order, exactly like the JavaScript stable `Array.prototype.sort`.
`List.insertionSort` is used as the stable sort throughout (the stable
sort of a list under a total preorder is unique, so the choice of stable
algorithm is immaterial). -/
def scoreDesc (a b : SmartSlotRecommendation) : Prop := b.score ≤ a.score

instance : DecidableRel scoreDesc :=
  fun a b => inferInstanceAs (Decidable (b.score ≤ a.score))

instance : IsTotal SmartSlotRecommendation scoreDesc :=
  ⟨fun a b => le_total b.score a.score⟩

instance : IsTrans SmartSlotRecommendation scoreDesc :=
  ⟨fun _ _ _ hab hbc => le_trans hbc hab⟩

/-- Scores all slots, sorts descending by score (stable) and returns the
first `topN` (`recommend`; its `try`/`catch` re-wraps exceptions, but the
body is total, so no error path is reachable). -/
def recommend (st : RecommenderState) (availableSlots : List RawSlot) (topN : Nat) :
    List SmartSlotRecommendation :=
  if availableSlots.isEmpty then []
  else (List.insertionSort scoreDesc (availableSlots.map (scoreSlot st))).take topN

/-! PreferenceEngine (`learnPreferences` and its analysis helpers). -/

/-- Keys of a numeric-keyed JavaScript object in `Object.entries` order:
integer-like keys enumerate in ascending numeric order, each once. -/
def keysAsc (l : List Nat) : List Nat :=
  List.insertionSort (· ≤ ·) l.dedup

/-- Hours of day of the successful records (the keys fed into
`hourCounts`). -/
def successfulHours (history : List SchedulingHistory) : List Nat :=
  (history.filter (fun r => r.successful)).map (fun r => r.hourOfDay)

/-- Frequency of hour `h` among the successful records (the `hourCounts`
object of `analyzePreferredTimes`). -/
def hourCount (history : List SchedulingHistory) (h : Nat) : Nat :=
  (history.filter (fun r => r.successful && decide (r.hourOfDay = h))).length

/-- Relation corresponding to the comparator `([_, a], [__, b]) => b - a`
over the frequency table: higher frequencies first. -/
def freqDesc (history : List SchedulingHistory) (a b : Nat) : Prop :=
  hourCount history b ≤ hourCount history a

instance (history : List SchedulingHistory) : DecidableRel (freqDesc history) :=
  fun a b => inferInstanceAs (Decidable (hourCount history b ≤ hourCount history a))

/-- Hours present in `hourCounts`, sorted by descending frequency; the
stable sort over the ascending `Object.entries` order breaks frequency
ties by ascending hour (the `sortedHours` array). -/
def sortedPeakHours (history : List SchedulingHistory) : List Nat :=
  List.insertionSort (freqDesc history) (keysAsc (successfulHours history))

/-- Formats a (non-empty) hour run into a range: `Math.min` of the hours to
`Math.max` of the hours plus one (`formatTimeRange`). -/
def formatTimeRange (hours : List Nat) : TimeRange :=
  { start := hhmm (hours.foldl Nat.min (hours.headD 0))
    stop := hhmm (hours.foldl Nat.max 0 + 1) }

/-- The range-building loop of `analyzePreferredTimes`: walks the
remaining hours, extending `currentRange` while the next hour is exactly
one above its last element and flushing it otherwise; the `[]` case is the
final unconditional flush (in the source `currentRange` is never empty). -/
def rangesLoop : List Nat → List Nat → List TimeRange → List TimeRange
  | [], currentRange, ranges => ranges ++ [formatTimeRange currentRange]
  | x :: rest, currentRange, ranges =>
    if x = currentRange.getLastD 0 + 1 then
      rangesLoop rest (currentRange ++ [x]) ranges
    else
      rangesLoop rest [x] (ranges ++ [formatTimeRange currentRange])

/-- Preferred time ranges learned from history (`analyzePreferredTimes`):
default working hours when no successful record exists, otherwise the
first three ranges produced by the merging loop over the
descending-frequency hour sequence. -/
def analyzePreferredTimes (history : List SchedulingHistory) : List TimeRange :=
  match sortedPeakHours history with
  | [] => [{ start := ("09:00"), stop := ("17:00") }]
  | h :: rest => (rangesLoop rest [h] []).take 3

/-- Weekdays of the successful records (the keys fed into `dayCounts`). -/
def successfulDays (history : List SchedulingHistory) : List Nat :=
  (history.filter (fun r => r.successful)).map (fun r => r.dayOfWeek)

/-- Frequency of weekday `d` among the successful records (the `dayCounts`
object of `analyzePreferredDays`). -/
def dayCount (history : List SchedulingHistory) (d : Nat) : Nat :=
  (history.filter (fun r => r.successful && decide (r.dayOfWeek = d))).length

/-- Preferred weekdays (`analyzePreferredDays`): the days whose frequency
strictly exceeds the mean over the seven weekdays, ascending (the final
JavaScript `.sort()` compares decimal strings, which agrees with numeric
order on the single-digit weekday keys of the data model); `[1, 2, 3, 4]`
when no day qualifies. -/
def analyzePreferredDays (history : List SchedulingHistory) : List Nat :=
  let totalCount : Nat := (history.filter (fun r => r.successful)).length
  let averageCount : ℚ := (totalCount : ℚ) / 7
  let preferredDays := (keysAsc (successfulDays history)).filter
    (fun d => decide (averageCount < (dayCount history d : ℚ)))
  if 0 < preferredDays.length then preferredDays else [1, 2, 3, 4]

/-- Total records on weekday `d` (the `total` tally of
`analyzeAvoidedTimes`). -/
def dayTotal (history : List SchedulingHistory) (d : Nat) : Nat :=
  (history.filter (fun r => decide (r.dayOfWeek = d))).length

/-- Rescheduled records on weekday `d` (the `rescheduled` tally of
`analyzeAvoidedTimes`). -/
def dayRescheduled (history : List SchedulingHistory) (d : Nat) : Nat :=
  (history.filter (fun r => decide (r.dayOfWeek = d) && r.rescheduled)).length

/-- Avoided-day analysis (`analyzeAvoidedTimes`): a weekday with at least
three records and a reschedule rate above 40% is flagged. -/
def analyzeAvoidedTimes (history : List SchedulingHistory) : List AvoidedTime :=
  (keysAsc (history.map (fun r => r.dayOfWeek))).filterMap (fun d =>
    let total := dayTotal history d
    let rate : ℚ := (dayRescheduled history d : ℚ) / (total : ℚ)
    if 0.4 < rate ∧ 3 ≤ total then
      some { dayOfWeek := some d
             timeRange := none
             reason := some (("High reschedule rate (")
               ++ toString (round (rate * 100)) ++ ("%)")) }
    else none)

/-- Frequency of duration `d` among the successful records (the
`durationCounts` object of `analyzePreferredDuration`). -/
def durationCount (history : List SchedulingHistory) (d : Nat) : Nat :=
  (history.filter (fun r => r.successful && decide (r.duration = d))).length

/-- Relation ordering durations by descending frequency. -/
def durFreqDesc (history : List SchedulingHistory) (a b : Nat) : Prop :=
  durationCount history b ≤ durationCount history a

instance (history : List SchedulingHistory) : DecidableRel (durFreqDesc history) :=
  fun a b => inferInstanceAs (Decidable (durationCount history b ≤ durationCount history a))

/-- Mode of the successful durations, default 60
(`analyzePreferredDuration`). -/
def analyzePreferredDuration (history : List SchedulingHistory) : Nat :=
  if history.isEmpty then 60
  else
    let ds := keysAsc ((history.filter (fun r => r.successful)).map (fun r => r.duration))
    (List.insertionSort (durFreqDesc history) ds).headD 60

/-- Fixed break analysis (`analyzePreferredBreak` returns the constant
15). -/
def analyzePreferredBreak (_history : List SchedulingHistory) : Nat := 15

/-- Default profile for users without history (`getDefaultPreferences`);
`now` is the clock value read by `new Date().toISOString()`. -/
def defaultPreferences (userId : String) (now : Nat) : SchedulingPreferences :=
  { userId := userId
    preferredDays := some [1, 2, 3, 4]
    preferredTimeRanges := some
      [{ start := ("09:00"), stop := ("12:00") }, { start := ("14:00"), stop := ("17:00") }]
    avoidedTimes := none
    preferredBreakMinutes := some 15
    maxInterviewsPerDay := some 4
    preferredDuration := some 60
    timezone := some ("UTC")
    confidence := 0.3
    updatedAt := now }

/-- Learns a preference profile from history (`learnPreferences`); `now`
is the wall-clock reading used for `updatedAt`. -/
def learnPreferences (userId : String) (history : List SchedulingHistory) (now : Nat) :
    SchedulingPreferences :=
  if history.isEmpty then defaultPreferences userId now
  else
    { userId := userId
      preferredDays := some (analyzePreferredDays history)
      preferredTimeRanges := some (analyzePreferredTimes history)
      avoidedTimes := some (analyzeAvoidedTimes history)
      preferredBreakMinutes := some (analyzePreferredBreak history)
      maxInterviewsPerDay := none
      preferredDuration := some (analyzePreferredDuration history)
      timezone := none
      confidence := min ((history.length : ℚ) / 20) 1
      updatedAt := now }

/-! ConflictResolver (`detectConflicts`, `resolve` and the per-type
suggestion rules). -/

/-- The five conflict kinds of the taxonomy. -/
inductive ConflictType where
  | double_booking
  | load_exceeded
  | outside_hours
  | holiday
  | preference_violation
deriving DecidableEq

/-- A detected conflict. -/
structure Conflict where
  type : ConflictType
  description : String
  affectedParticipants : List String
  severity : Nat
deriving DecidableEq

/-- The four suggestion actions. -/
inductive SuggestionAction where
  | reschedule
  | find_alternative
  | reduce_duration
  | change_participants
deriving DecidableEq

/-- One resolution suggestion. -/
structure ResolutionSuggestion where
  action : SuggestionAction
  description : String
  newSlot : Option SmartSlotRecommendation
  confidence : ℚ
  tradeoffs : List String
deriving DecidableEq

/-- The resolution produced for one conflict. -/
structure ConflictResolution where
  conflictType : ConflictType
  description : String
  affectedParticipants : List String
  suggestions : List ResolutionSuggestion
  severity : Nat
deriving DecidableEq

/-- The private fields of the `ConflictResolver` class: whether an LLM
provider was supplied, and the optional pool of scored alternative slots
(`undefined` and a present empty array behave differently in the source
and are kept apart here). -/
structure ResolverState where
  hasLLM : Bool
  availableSlots : Option (List SmartSlotRecommendation)
deriving DecidableEq

/-- Stand-in for `Date.prototype.toLocaleString`: renders the minute
timestamp as its decimal numeral; the exact text matters to none of the
verified properties. -/
def dateToLocaleString (t : Nat) : String := toString t

/-- Suggestions for a double-booking (`resolveDoubleBooking`): an
alternative-slot suggestion when the pool is present and non-empty, then
the fixed reschedule and change-participants suggestions. -/
def resolveDoubleBooking (st : ResolverState) (_c : Conflict) : List ResolutionSuggestion :=
  let alt :=
    match st.availableSlots with
    | some (s :: _) =>
      [{ action := SuggestionAction.find_alternative
         description := ("Reschedule to ") ++ dateToLocaleString s.startTime
         newSlot := some s
         confidence := s.score
         tradeoffs := [("May not be optimal time"), ("All participants available")] }]
    | _ => []
  alt ++
    [{ action := SuggestionAction.reschedule
       description := ("Reschedule the conflicting meeting to a later time")
       newSlot := none
       confidence := 0.6
       tradeoffs := [("Affects other participants"), ("May cascade additional conflicts")] },
     { action := SuggestionAction.change_participants
       description := ("Assign different interviewers who are available")
       newSlot := none
       confidence := 0.5
       tradeoffs := [("Different interviewer expertise"), ("May affect evaluation consistency")] }]

/-- Suggestions for an exceeded load (`resolveLoadExceeded`); `now` is the
clock value behind `new Date()` — slots at least seven days out survive
the next-week filter. -/
def resolveLoadExceeded (st : ResolverState) (now : Nat) (_c : Conflict) :
    List ResolutionSuggestion :=
  let nextWeekAlt :=
    match st.availableSlots with
    | some slots =>
      match slots.filter (fun s => decide (now + 7 * 1440 ≤ s.startTime)) with
      | s :: _ =>
        [{ action := SuggestionAction.find_alternative
           description := ("Schedule next week when load is lower")
           newSlot := some s
           confidence := 0.7
           tradeoffs := [("Delays interview process"), ("Interviewer has more capacity")] }]
      | [] => []
    | none => []
  [{ action := SuggestionAction.change_participants
     description := ("Reassign to interviewers with lower load")
     newSlot := none
     confidence := 0.8
     tradeoffs := [("Better load distribution"), ("Different interviewer perspective")] }]
    ++ nextWeekAlt ++
    [{ action := SuggestionAction.reduce_duration
       description := ("Reduce interview duration to stay within limits")
       newSlot := none
       confidence := 0.5
       tradeoffs := [("Less time for evaluation"), ("Respects interviewer limits")] }]

/-- Standard work-hours test used by `resolveOutsideHours`. -/
def withinWorkHours (s : SmartSlotRecommendation) : Bool :=
  decide (9 ≤ getHours s.startTime) && decide (getHours s.startTime < 17)

/-- Suggestions for an outside-hours conflict (`resolveOutsideHours`):
only an alternative inside work hours, when one exists. -/
def resolveOutsideHours (st : ResolverState) (_c : Conflict) : List ResolutionSuggestion :=
  match st.availableSlots with
  | some slots =>
    match slots.filter withinWorkHours with
    | s :: _ =>
      [{ action := SuggestionAction.find_alternative
         description := ("Reschedule to within work hours: ") ++ dateToLocaleString s.startTime
         newSlot := some s
         confidence := 0.9
         tradeoffs := [("Respects work hours"), ("May delay scheduling")] }]
    | [] => []
  | none => []

/-- Suggestions for a holiday conflict (`resolveHoliday`): pushed whenever
the pool is present — even empty, in which case `availableSlots[0]` is
`undefined` (`none`). -/
def resolveHoliday (st : ResolverState) (_c : Conflict) : List ResolutionSuggestion :=
  match st.availableSlots with
  | some slots =>
    [{ action := SuggestionAction.find_alternative
       description := ("Reschedule to next available working day")
       newSlot := slots.head?
       confidence := 0.9
       tradeoffs := [("Avoids holiday scheduling"), ("May affect interview timeline")] }]
  | none => []

/-- Suggestions for a preference violation (`resolvePreferenceViolation`):
a high-preference alternative when one exists, then the fixed override
suggestion. -/
def resolvePreferenceViolation (st : ResolverState) (_c : Conflict) :
    List ResolutionSuggestion :=
  let alt :=
    match st.availableSlots with
    | some slots =>
      match slots.filter (fun s => decide ((0.7 : ℚ) < s.factors.preferenceMatch)) with
      | s :: _ =>
        [{ action := SuggestionAction.find_alternative
           description := ("Reschedule to time matching participant preferences")
           newSlot := some s
           confidence := 0.8
           tradeoffs := [("Matches participant preferences"), ("Higher likelihood of acceptance")] }]
      | [] => []
    | none => []
  alt ++
    [{ action := SuggestionAction.reschedule
       description := ("Proceed with current time if urgent (override preference)")
       newSlot := none
       confidence := 0.4
       tradeoffs := [("May reduce participant satisfaction"), ("Meets scheduling urgency")] }]

/-- LLM fallback (`getLLMSuggestions`): the source builds a prompt and
then returns the empty list (an explicit placeholder); failures are caught
and also yield `[]`. -/
def getLLMSuggestions (_st : ResolverState) (_c : Conflict) : List ResolutionSuggestion := []

/-- Dispatch on the conflict type plus the LLM fallback for empty rule
output (`generateSuggestions`). -/
def generateSuggestions (st : ResolverState) (now : Nat) (c : Conflict) :
    List ResolutionSuggestion :=
  let suggestions :=
    match c.type with
    | ConflictType.double_booking => resolveDoubleBooking st c
    | ConflictType.load_exceeded => resolveLoadExceeded st now c
    | ConflictType.outside_hours => resolveOutsideHours st c
    | ConflictType.holiday => resolveHoliday st c
    | ConflictType.preference_violation => resolvePreferenceViolation st c
  if st.hasLLM && suggestions.isEmpty then getLLMSuggestions st c else suggestions

/-- Relation corresponding to the comparator
`(a, b) => b.confidence - a.confidence`: higher confidence first. -/
def confDesc (a b : ResolutionSuggestion) : Prop := b.confidence ≤ a.confidence

instance : DecidableRel confDesc :=
  fun a b => inferInstanceAs (Decidable (b.confidence ≤ a.confidence))

instance : IsTotal ResolutionSuggestion confDesc :=
  ⟨fun a b => le_total b.confidence a.confidence⟩

instance : IsTrans ResolutionSuggestion confDesc :=
  ⟨fun _ _ _ hab hbc => le_trans hbc hab⟩

/-- Resolves one conflict (`resolveConflict`): generates suggestions,
ranks them by descending confidence, and copies the conflict's identifying
fields into the resolution. -/
def resolveConflict (st : ResolverState) (now : Nat) (c : Conflict) : ConflictResolution :=
  { conflictType := c.type
    description := c.description
    affectedParticipants := c.affectedParticipants
    suggestions := List.insertionSort confDesc (generateSuggestions st now c)
    severity := c.severity }

/-- Resolves a batch of conflicts (`resolve`); the loop pushes one
resolution per conflict, in order. -/
def resolve (st : ResolverState) (conflicts : List Conflict) (now : Nat) :
    List ConflictResolution :=
  if conflicts.isEmpty then []
  else conflicts.map (resolveConflict st now)

/-- A proposed slot handed to `detectConflicts`. -/
structure ProposedSlot where
  startTime : Nat
  endTime : Nat
  interviewers : List String
deriving DecidableEq

/-- One entry of the existing schedule handed to `detectConflicts`. -/
structure ExistingBooking where
  startTime : Nat
  endTime : Nat
  participants : List String
deriving DecidableEq

/-- Strict interval overlap (`checkTimeOverlap`). -/
def checkTimeOverlap (start1 end1 start2 end2 : Nat) : Bool :=
  decide (start1 < end2) && decide (end1 > start2)

/-- Proposed interviewers also among the existing booking's participants
(the `affectedParticipants` filter of `detectConflicts`). -/
def intersectIds (p : ProposedSlot) (e : ExistingBooking) : List String :=
  p.interviewers.filter (fun q => e.participants.contains q)

/-- The double-booking conflict emitted for one qualifying booking. -/
def doubleBookingConflict (p : ProposedSlot) (e : ExistingBooking) : Conflict :=
  { type := ConflictType.double_booking
    description := ("Double-booking detected for: ")
      ++ String.intercalate (", ") (intersectIds p e)
    affectedParticipants := intersectIds p e
    severity := 5 }

/-- The outside-hours conflict emitted when the proposed start hour is
before 9 or at/after 17. -/
def outsideHoursConflict (p : ProposedSlot) : Conflict :=
  { type := ConflictType.outside_hours
    description := ("Proposed time (") ++ toString (getHours p.startTime)
      ++ (":00) is outside standard work hours")
    affectedParticipants := p.interviewers
    severity := 3 }

/-- Conflict detection (`detectConflicts`): one double-booking conflict
per overlapping booking with intersecting participants, then an
outside-hours conflict when the proposed start hour is outside `[9, 17)`. -/
def detectConflicts (p : ProposedSlot) (existingSchedule : List ExistingBooking) :
    List Conflict :=
  let conflicts := existingSchedule.foldl (fun acc e =>
    if checkTimeOverlap p.startTime p.endTime e.startTime e.endTime then
      if 0 < (intersectIds p e).length then acc ++ [doubleBookingConflict p e] else acc
    else acc) []
  let startHour := getHours p.startTime
  if startHour < 9 ∨ 17 ≤ startHour then conflicts ++ [outsideHoursConflict p]
  else conflicts

/-! Specification-side definitions, written from the spec's words and used
to state refinement results and counterexamples. -/

/-- Membership in the closed unit interval, the invariant claimed for all
computed scores, factors and confidences. -/
def inUnit (q : ℚ) : Prop := 0 ≤ q ∧ q ≤ 1

/-- A profile with its timestamp normalised: two profiles agree on every
field except `updatedAt` exactly when their images under this map
coincide. -/
def eraseUpdatedAt (p : SchedulingPreferences) : SchedulingPreferences :=
  { p with updatedAt := 0 }

/-- Prepends the run `cur` to a run list: it is merged into the first run
when that run starts exactly one above `cur`'s last hour, and stands alone
otherwise. -/
def mergeFirst (cur : List Nat) : List (List Nat) → List (List Nat)
  | [] => [cur]
  | [] :: rs => cur :: [] :: rs
  | (y :: r) :: rs =>
    if y = cur.getLastD 0 + 1 then (cur ++ y :: r) :: rs else cur :: (y :: r) :: rs

/-- Maximal runs of consecutively increasing hours of a sequence, in
sequence order: each element either extends the run in front of it (when
that run starts one above it) or opens a new run. -/
def groupRuns : List Nat → List (List Nat)
  | [] => []
  | x :: xs => mergeFirst [x] (groupRuns xs)

/-- Relation ordering hour runs by descending total frequency. -/
def runFreqDesc (history : List SchedulingHistory) (a b : List Nat) : Prop :=
  (b.map (hourCount history)).sum ≤ (a.map (hourCount history)).sum

instance (history : List SchedulingHistory) : DecidableRel (runFreqDesc history) :=
  fun a b => inferInstanceAs
    (Decidable ((b.map (hourCount history)).sum ≤ (a.map (hourCount history)).sum))

/-- The time-range algorithm exactly as the claim words it: sort the hours
by descending frequency, re-sort the (top) hours ascending, merge
consecutive hours into contiguous ranges, and return the top 3 ranges by
total frequency. -/
def claimedPreferredTimes (history : List SchedulingHistory) : List TimeRange :=
  match sortedPeakHours history with
  | [] => [{ start := ("09:00"), stop := ("17:00") }]
  | x :: rest =>
    let asc := List.insertionSort (· ≤ ·) (x :: rest)
    let ranges := groupRuns asc
    let byFreq := List.insertionSort (runFreqDesc history) ranges
    (byFreq.map formatTimeRange).take 3

instance (q : ℚ) : Decidable (inUnit q) :=
  inferInstanceAs (Decidable (0 ≤ q ∧ q ≤ 1))

/-! Concrete data used to instantiate the theorems below. -/

/-- A recommender state with no profiles and no history. -/
def stEmpty : RecommenderState := { preferences := [], history := [] }

/-- A successful Tuesday booking at the given hour. -/
def histRecord (h : Nat) : SchedulingHistory :=
  { participants := [], scheduledTime := 0, duration := 60, dayOfWeek := 2, hourOfDay := h
    successful := true, satisfaction := none, rescheduled := false }

/-- Hour 9 once and hour 10 twice, all successful. -/
def histNineTenTen : List SchedulingHistory :=
  [histRecord 9, histRecord 10, histRecord 10]

/-- A slot whose load information exceeds its capacity
(`currentLoad = 20 > 10 = maxLoad`), allowed by the data model. -/
def overloadedSlot : RawSlot :=
  { id := ("s1"), startTime := 2 * 1440 + 600, endTime := 2 * 1440 + 660
    interviewers := [], loadInfo := some { currentLoad := 20, maxLoad := 10 } }

/-- A well-loaded Tuesday-morning slot. -/
def healthySlot : RawSlot :=
  { id := ("s2"), startTime := 5 * 1440 + 600, endTime := 5 * 1440 + 660
    interviewers := [{ id := ("i1"), name := ("Ana"), email := ("ana@x.y") }]
    loadInfo := some { currentLoad := 2, maxLoad := 10 } }

/-- A recommender state with one satisfaction-bearing history record. -/
def stWitness : RecommenderState :=
  { preferences := []
    history := [{ participants := [("ana@x.y")], scheduledTime := 0, duration := 60
                  dayOfWeek := 2, hourOfDay := 10, successful := true
                  satisfaction := some 4, rescheduled := false }] }

/-- A malformed slot: `endTime` strictly before `startTime`. -/
def badSlot : RawSlot :=
  { id := ("bad"), startTime := 600, endTime := 0, interviewers := [], loadInfo := none }

/-- A resolver with no LLM provider and an absent alternative pool. -/
def stNone : ResolverState := { hasLLM := false, availableSlots := none }

/-- An outside-hours conflict. -/
def cOutside : Conflict :=
  { type := ConflictType.outside_hours, description := ("late")
    affectedParticipants := [("alice")], severity := 3 }

/-- A double-booking conflict. -/
def cDouble : Conflict :=
  { type := ConflictType.double_booking, description := ("overlap")
    affectedParticipants := [("bob")], severity := 5 }

/-- A load-exceeded conflict. -/
def cLoad : Conflict :=
  { type := ConflictType.load_exceeded, description := ("too much")
    affectedParticipants := [("carol")], severity := 4 }

/-- A scored alternative slot about 13.9 days after the epoch. -/
def altSlot : SmartSlotRecommendation :=
  { slotId := ("alt"), startTime := 20000, endTime := 20060, interviewers := []
    score := 0.5, reasons := []
    factors := { preferenceMatch := 0.5, loadBalance := 0.5, timeOfDay := 0.5
                 dayOfWeek := 0.5, pastSuccess := 0.5, participantSatisfaction := 0.5 } }

/-- A resolver holding `altSlot` as its only alternative. -/
def stLoad : ResolverState := { hasLLM := false, availableSlots := some [altSlot] }

/-- A proposed 8:00–9:00 slot for Alice. -/
def proposedEarly : ProposedSlot :=
  { startTime := 480, endTime := 540, interviewers := [("alice")] }

/-- An existing 8:20–9:20 booking with Alice. -/
def bookingEarly : ExistingBooking :=
  { startTime := 500, endTime := 560, participants := [("alice")] }

/-! Helper lemmas: unit-interval bounds for the scoring factors. -/

theorem avg_inUnit {l : List ℚ} (h : ∀ x ∈ l, 0 ≤ x ∧ x ≤ 1) :
    inUnit (l.sum / (l.length : ℚ)) := by
  rcases l with _ | ⟨x, xs⟩
  · simp [inUnit]
  · have hpos : (0 : ℚ) < ((x :: xs).length : ℚ) := by
      exact_mod_cast Nat.succ_pos xs.length
    constructor
    · exact div_nonneg (List.sum_nonneg fun a ha => (h a ha).1) hpos.le
    · rw [div_le_one hpos]
      calc (x :: xs).sum ≤ (x :: xs).length • (1 : ℚ) :=
            List.sum_le_card_nsmul _ 1 fun a ha => (h a ha).2
        _ = ((x :: xs).length : ℚ) := by simp

theorem prefScore_inUnit (d h : Nat) (pref : SchedulingPreferences) :
    inUnit (prefScore d h pref) := by
  unfold prefScore
  refine ⟨le_min ?_ (by norm_num), min_le_right _ _⟩
  have h1 : (0 : ℚ) ≤
      (match pref.preferredDays with
       | some ds => if d ∈ ds then (0.5 : ℚ) else 0
       | none => 0) := by
    cases pref.preferredDays with
    | none => norm_num
    | some ds => dsimp only; split_ifs <;> norm_num
  have h2 : (0 : ℚ) ≤
      (match pref.preferredTimeRanges with
       | some ranges =>
         if ranges.any (fun r =>
             decide (parseHour r.start ≤ h) && decide (h < parseHour r.stop))
         then (0.5 : ℚ) else 0
       | none => 0) := by
    cases pref.preferredTimeRanges with
    | none => norm_num
    | some ranges => dsimp only; split_ifs <;> norm_num
  exact add_nonneg h1 h2

theorem scorePreferenceMatch_inUnit (st : RecommenderState) (d h : Nat) :
    inUnit (scorePreferenceMatch st d h) := by
  unfold scorePreferenceMatch
  split_ifs with h1 h2
  · exact ⟨by norm_num, by norm_num⟩
  · have := avg_inUnit (l := st.preferences.map (prefScore d h))
      (fun x hx => by
        obtain ⟨p, _, rfl⟩ := List.mem_map.mp hx
        exact prefScore_inUnit d h p)
    simpa [List.length_map] using this
  · exact ⟨by norm_num, by norm_num⟩

theorem scoreLoadBalance_inUnit (slot : RawSlot)
    (hl : ∀ li, slot.loadInfo = some li → li.currentLoad ≤ li.maxLoad ∧ 0 < li.maxLoad) :
    inUnit (scoreLoadBalance slot) := by
  unfold scoreLoadBalance
  cases hli : slot.loadInfo with
  | none => exact ⟨by norm_num, by norm_num⟩
  | some li =>
    obtain ⟨hle, hpos⟩ := hl li hli
    have hposq : (0 : ℚ) < (li.maxLoad : ℚ) := by exact_mod_cast hpos
    have hratio1 : (li.currentLoad : ℚ) / (li.maxLoad : ℚ) ≤ 1 := by
      rw [div_le_one hposq]; exact_mod_cast hle
    have hratio0 : (0 : ℚ) ≤ (li.currentLoad : ℚ) / (li.maxLoad : ℚ) :=
      div_nonneg (by positivity) hposq.le
    exact ⟨by linarith, by linarith⟩

theorem scoreTimeOfDay_inUnit (h : Nat) : inUnit (scoreTimeOfDay h) := by
  unfold scoreTimeOfDay
  split_ifs <;> exact ⟨by norm_num, by norm_num⟩

theorem scoreDayOfWeek_inUnit (d : Nat) : inUnit (scoreDayOfWeek d) := by
  unfold scoreDayOfWeek
  split_ifs <;> exact ⟨by norm_num, by norm_num⟩

theorem scorePastSuccess_inUnit (st : RecommenderState) (d h : Nat) :
    inUnit (scorePastSuccess st d h) := by
  unfold scorePastSuccess
  split_ifs with h1 h2
  · exact ⟨by norm_num, by norm_num⟩
  · exact ⟨by norm_num, by norm_num⟩
  · have hlen : 0 < (similarSlots st d h).length := by
      cases hs : similarSlots st d h with
      | nil => rw [hs] at h2; simp at h2
      | cons a t => simp [hs]
    have hlenq : (0 : ℚ) < ((similarSlots st d h).length : ℚ) := by exact_mod_cast hlen
    constructor
    · exact div_nonneg (by positivity) hlenq.le
    · rw [div_le_one hlenq]
      exact_mod_cast List.length_filter_le _ (similarSlots st d h)

theorem satisfactionTerms_inUnit (st : RecommenderState) (ivs : List Interviewer)
    (hs : ∀ r ∈ st.history, ∀ q, r.satisfaction = some q → 0 ≤ q ∧ q ≤ 5) :
    ∀ x ∈ satisfactionTerms st ivs, 0 ≤ x ∧ x ≤ 1 := by
  intro x hx
  unfold satisfactionTerms at hx
  simp only [List.mem_flatMap, List.mem_filterMap, List.mem_filter] at hx
  obtain ⟨iv, _, r, ⟨hr, _⟩, hsat⟩ := hx
  cases hq : r.satisfaction with
  | none => rw [hq] at hsat; simp at hsat
  | some s =>
    rw [hq] at hsat
    by_cases hz : s = 0
    · simp [hz] at hsat
    · simp only [if_neg hz] at hsat
      obtain ⟨h0, h5⟩ := hs r hr s hq
      rw [← Option.some_inj.mp hsat]
      constructor
      · positivity
      · rw [div_le_one (by norm_num : (0 : ℚ) < 5)]; linarith

theorem scoreParticipantSatisfaction_inUnit (st : RecommenderState) (ivs : List Interviewer)
    (hs : ∀ r ∈ st.history, ∀ q, r.satisfaction = some q → 0 ≤ q ∧ q ≤ 5) :
    inUnit (scoreParticipantSatisfaction st ivs) := by
  unfold scoreParticipantSatisfaction
  split_ifs with h1 h2
  · exact ⟨by norm_num, by norm_num⟩
  · exact avg_inUnit (satisfactionTerms_inUnit st ivs hs)
  · exact ⟨by norm_num, by norm_num⟩

theorem weightedScore_inUnit {f : ScoringFactors}
    (h1 : inUnit f.preferenceMatch) (h2 : inUnit f.loadBalance) (h3 : inUnit f.timeOfDay)
    (h4 : inUnit f.dayOfWeek) (h5 : inUnit f.pastSuccess)
    (h6 : inUnit f.participantSatisfaction) :
    inUnit (weightedScore f) := by
  obtain ⟨a1, b1⟩ := h1
  obtain ⟨a2, b2⟩ := h2
  obtain ⟨a3, b3⟩ := h3
  obtain ⟨a4, b4⟩ := h4
  obtain ⟨a5, b5⟩ := h5
  obtain ⟨a6, b6⟩ := h6
  unfold weightedScore
  constructor
  · nlinarith
  · nlinarith

theorem calculateFactors_inUnit (st : RecommenderState) (slot : RawSlot)
    (hl : ∀ li, slot.loadInfo = some li → li.currentLoad ≤ li.maxLoad ∧ 0 < li.maxLoad)
    (hs : ∀ r ∈ st.history, ∀ q, r.satisfaction = some q → 0 ≤ q ∧ q ≤ 5) :
    inUnit (calculateFactors st slot).preferenceMatch
      ∧ inUnit (calculateFactors st slot).loadBalance
      ∧ inUnit (calculateFactors st slot).timeOfDay
      ∧ inUnit (calculateFactors st slot).dayOfWeek
      ∧ inUnit (calculateFactors st slot).pastSuccess
      ∧ inUnit (calculateFactors st slot).participantSatisfaction := by
  refine ⟨?_, ?_, ?_, ?_, ?_, ?_⟩
  · exact scorePreferenceMatch_inUnit st _ _
  · exact scoreLoadBalance_inUnit slot hl
  · exact scoreTimeOfDay_inUnit _
  · exact scoreDayOfWeek_inUnit _
  · exact scorePastSuccess_inUnit st _ _
  · exact scoreParticipantSatisfaction_inUnit st _ hs

/-! Helper lemmas about `recommend`. -/

theorem scoreSlot_factors (st : RecommenderState) (slot : RawSlot) :
    (scoreSlot st slot).factors = calculateFactors st slot := rfl

theorem scoreSlot_score (st : RecommenderState) (slot : RawSlot) :
    (scoreSlot st slot).score = weightedScore (calculateFactors st slot) := rfl

theorem recommend_eq_take (st : RecommenderState) (slots : List RawSlot) (topN : Nat) :
    recommend st slots topN
      = (List.insertionSort scoreDesc (slots.map (scoreSlot st))).take topN := by
  unfold recommend
  split_ifs with h
  · rw [List.isEmpty_iff.mp h]
    simp
  · rfl

theorem length_recommend (st : RecommenderState) (slots : List RawSlot) (topN : Nat) :
    (recommend st slots topN).length = min topN slots.length := by
  rw [recommend_eq_take, List.length_take, List.length_insertionSort, List.length_map]

theorem sorted_recommend (st : RecommenderState) (slots : List RawSlot) (topN : Nat) :
    (recommend st slots topN).Pairwise scoreDesc := by
  rw [recommend_eq_take]
  exact (List.sorted_insertionSort scoreDesc (slots.map (scoreSlot st))).sublist
    (List.take_sublist _ _)

theorem mem_recommend {st : RecommenderState} {slots : List RawSlot} {topN : Nat}
    {x : SmartSlotRecommendation} (hx : x ∈ recommend st slots topN) :
    ∃ s ∈ slots, x = scoreSlot st s := by
  rw [recommend_eq_take] at hx
  have hx2 : x ∈ List.insertionSort scoreDesc (slots.map (scoreSlot st)) :=
    List.mem_of_mem_take hx
  rw [List.mem_insertionSort] at hx2
  obtain ⟨s, hs, rfl⟩ := List.mem_map.mp hx2
  exact ⟨s, hs, rfl⟩

/-! Helper lemmas about `learnPreferences`. -/

theorem learn_confidence_empty (u : String) (now : Nat) :
    (learnPreferences u [] now).confidence = 0.3 := rfl

theorem learn_confidence_nonempty (u : String) (h : List SchedulingHistory) (now : Nat)
    (hne : h ≠ []) :
    (learnPreferences u h now).confidence = min ((h.length : ℚ) / 20) 1 := by
  unfold learnPreferences
  rw [if_neg (by simpa [List.isEmpty_iff] using hne)]

theorem learn_confidence_inUnit (u : String) (h : List SchedulingHistory) (now : Nat) :
    inUnit (learnPreferences u h now).confidence := by
  rcases h with _ | ⟨r, rs⟩
  · rw [learn_confidence_empty]
    exact ⟨by norm_num, by norm_num⟩
  · rw [learn_confidence_nonempty u (r :: rs) now (by simp)]
    constructor
    · exact le_min (by positivity) (by norm_num)
    · exact min_le_right _ _

theorem learn_erase_now (u : String) (h : List SchedulingHistory) (n1 n2 : Nat) :
    eraseUpdatedAt (learnPreferences u h n1) = eraseUpdatedAt (learnPreferences u h n2) := by
  unfold learnPreferences defaultPreferences eraseUpdatedAt
  split_ifs <;> rfl

/-! Helper lemmas about `detectConflicts`. -/

theorem foldl_push_eq_filterMap {α β : Type} (g : α → Option β) :
    ∀ (l : List α) (init : List β),
      l.foldl (fun acc x => acc ++ (g x).toList) init = init ++ l.filterMap g := by
  intro l
  induction l with
  | nil => intro init; simp
  | cons x xs ih =>
    intro init
    rw [List.foldl_cons, ih, List.filterMap_cons]
    cases h : g x with
    | none => simp [h]
    | some b => simp [h]

theorem detect_fold_step (p : ProposedSlot) (acc : List Conflict) (e : ExistingBooking) :
    (if checkTimeOverlap p.startTime p.endTime e.startTime e.endTime then
       if 0 < (intersectIds p e).length then acc ++ [doubleBookingConflict p e] else acc
     else acc)
      = acc ++ ((fun e =>
          if checkTimeOverlap p.startTime p.endTime e.startTime e.endTime
              && decide (0 < (intersectIds p e).length)
          then some (doubleBookingConflict p e) else none) e).toList := by
  by_cases h1 : checkTimeOverlap p.startTime p.endTime e.startTime e.endTime <;>
    by_cases h2 : 0 < (intersectIds p e).length <;>
      simp [h1, h2]

theorem filterMap_if_eq_map_filter {α β : Type} (pb : α → Bool) (f : α → β) :
    ∀ l : List α,
      l.filterMap (fun x => if pb x then some (f x) else none) = (l.filter pb).map f := by
  intro l
  induction l with
  | nil => rfl
  | cons x xs ih => by_cases h : pb x <;> simp [h, ih]

theorem detectConflicts_eq (p : ProposedSlot) (sched : List ExistingBooking) :
    detectConflicts p sched =
      (sched.filter (fun e =>
          checkTimeOverlap p.startTime p.endTime e.startTime e.endTime
            && decide (0 < (intersectIds p e).length))).map (doubleBookingConflict p)
      ++ (if getHours p.startTime < 9 ∨ 17 ≤ getHours p.startTime
          then [outsideHoursConflict p] else []) := by
  simp only [detectConflicts]
  have hfun : (fun (acc : List Conflict) (e : ExistingBooking) =>
      if checkTimeOverlap p.startTime p.endTime e.startTime e.endTime then
        if 0 < (intersectIds p e).length then acc ++ [doubleBookingConflict p e] else acc
      else acc)
      = (fun acc e => acc ++ ((fun e =>
          if checkTimeOverlap p.startTime p.endTime e.startTime e.endTime
              && decide (0 < (intersectIds p e).length)
          then some (doubleBookingConflict p e) else none) e).toList) := by
    funext acc e
    exact detect_fold_step p acc e
  rw [hfun, foldl_push_eq_filterMap, List.nil_append, filterMap_if_eq_map_filter]
  split_ifs with h
  · rfl
  · rw [List.append_nil]

/-! Helper lemmas about `resolve`. -/

theorem resolve_eq_map (st : ResolverState) (cs : List Conflict) (now : Nat) :
    resolve st cs now = cs.map (resolveConflict st now) := by
  unfold resolve
  split_ifs with h
  · rw [List.isEmpty_iff.mp h]
    rfl
  · rfl

theorem length_resolve (st : ResolverState) (cs : List Conflict) (now : Nat) :
    (resolve st cs now).length = cs.length := by
  rw [resolve_eq_map, List.length_map]

theorem resolveDoubleBooking_length_le (st : ResolverState) (c : Conflict) :
    (resolveDoubleBooking st c).length ≤ 3 := by
  unfold resolveDoubleBooking
  rcases st.availableSlots with _ | ⟨_ | ⟨s, ss⟩⟩ <;> simp

theorem resolveLoadExceeded_length_le (st : ResolverState) (now : Nat) (c : Conflict) :
    (resolveLoadExceeded st now c).length ≤ 3 := by
  unfold resolveLoadExceeded
  rcases st.availableSlots with _ | slots
  · simp
  · cases hf : slots.filter (fun s => decide (now + 7 * 1440 ≤ s.startTime)) <;> simp [hf]

theorem resolveOutsideHours_length_le (st : ResolverState) (c : Conflict) :
    (resolveOutsideHours st c).length ≤ 3 := by
  unfold resolveOutsideHours
  rcases st.availableSlots with _ | slots
  · simp
  · cases hf : slots.filter withinWorkHours <;> simp [hf]

theorem resolveHoliday_length_le (st : ResolverState) (c : Conflict) :
    (resolveHoliday st c).length ≤ 3 := by
  unfold resolveHoliday
  rcases st.availableSlots with _ | slots <;> simp

theorem resolvePreferenceViolation_length_le (st : ResolverState) (c : Conflict) :
    (resolvePreferenceViolation st c).length ≤ 3 := by
  unfold resolvePreferenceViolation
  rcases st.availableSlots with _ | slots
  · simp
  · cases hf : slots.filter (fun s => decide ((0.7 : ℚ) < s.factors.preferenceMatch)) <;>
      simp [hf]

theorem generateSuggestions_length_le (st : ResolverState) (now : Nat) (c : Conflict) :
    (generateSuggestions st now c).length ≤ 3 := by
  rcases c with ⟨t, d, a, sev⟩
  simp only [generateSuggestions]
  split_ifs with h
  · simp [getLLMSuggestions]
  · cases t
    · exact resolveDoubleBooking_length_le st _
    · exact resolveLoadExceeded_length_le st now _
    · exact resolveOutsideHours_length_le st _
    · exact resolveHoliday_length_le st _
    · exact resolvePreferenceViolation_length_le st _

theorem resolveConflict_suggestions_length (st : ResolverState) (now : Nat) (c : Conflict) :
    (resolveConflict st now c).suggestions.length
      = (generateSuggestions st now c).length := by
  show (List.insertionSort confDesc (generateSuggestions st now c)).length = _
  rw [List.length_insertionSort]

theorem resolveConflict_suggestions_le (st : ResolverState) (now : Nat) (c : Conflict) :
    (resolveConflict st now c).suggestions.length ≤ 3 := by
  rw [resolveConflict_suggestions_length]
  exact generateSuggestions_length_le st now c

theorem resolveConflict_suggestions_sorted (st : ResolverState) (now : Nat) (c : Conflict) :
    (resolveConflict st now c).suggestions.Pairwise confDesc :=
  List.sorted_insertionSort confDesc (generateSuggestions st now c)

theorem resolveConflict_now_independent (st : ResolverState) (n1 n2 : Nat) (c : Conflict)
    (h : c.type ≠ ConflictType.load_exceeded) :
    resolveConflict st n1 c = resolveConflict st n2 c := by
  unfold resolveConflict generateSuggestions
  cases htype : c.type
  · rfl
  · exact absurd htype h
  · rfl
  · rfl
  · rfl

/-! Helper lemmas relating the range-building loop of
`analyzePreferredTimes` to `groupRuns`. -/

theorem mergeFirst_singleton (x : Nat) (gs : List (List Nat)) :
    ∃ r rs, mergeFirst [x] gs = (x :: r) :: rs := by
  match gs with
  | [] => exact ⟨[], [], rfl⟩
  | [] :: rs => exact ⟨[], [] :: rs, rfl⟩
  | (y :: r) :: rs =>
    by_cases hy : y = x + 1
    · refine ⟨y :: r, rs, ?_⟩
      simp [mergeFirst, hy]
    · refine ⟨[], (y :: r) :: rs, ?_⟩
      simp [mergeFirst, hy]

theorem mergeFirst_append_last {cur : List Nat} {x : Nat} (hx : x = cur.getLastD 0 + 1)
    (gs : List (List Nat)) :
    mergeFirst (cur ++ [x]) gs = mergeFirst cur (mergeFirst [x] gs) := by
  have hx' : x = cur.getLast?.getD 0 + 1 := by
    rw [← List.getLastD_eq_getLast?]; exact hx
  have hlast : (cur ++ [x]).getLastD 0 = x := List.getLastD_concat _ _ _
  rw [List.getLastD_eq_getLast?] at hlast
  match gs with
  | [] =>
    show [cur ++ [x]] = mergeFirst cur [[x]]
    simp [mergeFirst, ← hx']
  | [] :: rs =>
    show (cur ++ [x]) :: [] :: rs = mergeFirst cur ([x] :: [] :: rs)
    simp [mergeFirst, ← hx']
  | (y :: r) :: rs =>
    by_cases hy : y = x + 1
    · have h1 : mergeFirst (cur ++ [x]) ((y :: r) :: rs) = ((cur ++ [x]) ++ y :: r) :: rs := by
        simp [mergeFirst, hlast, hy]
      have h2 : mergeFirst [x] ((y :: r) :: rs) = (x :: y :: r) :: rs := by
        simp [mergeFirst, hy]
      rw [h1, h2]
      simp [mergeFirst, ← hx', List.append_assoc]
    · have h1 : mergeFirst (cur ++ [x]) ((y :: r) :: rs) = (cur ++ [x]) :: (y :: r) :: rs := by
        simp [mergeFirst, hlast, hy]
      have h2 : mergeFirst [x] ((y :: r) :: rs) = [x] :: (y :: r) :: rs := by
        simp [mergeFirst, hy]
      rw [h1, h2]
      simp [mergeFirst, ← hx']

theorem mergeFirst_not_last {cur : List Nat} {x : Nat} (hx : ¬ x = cur.getLastD 0 + 1)
    (gs : List (List Nat)) :
    mergeFirst cur (mergeFirst [x] gs) = cur :: mergeFirst [x] gs := by
  have hx' : ¬ x = cur.getLast?.getD 0 + 1 := by
    rw [← List.getLastD_eq_getLast?]; exact hx
  obtain ⟨r, rs, hr⟩ := mergeFirst_singleton x gs
  rw [hr]
  simp [mergeFirst, hx']

theorem rangesLoop_eq (t : List Nat) :
    ∀ (cur : List Nat) (acc : List TimeRange),
      rangesLoop t cur acc = acc ++ (mergeFirst cur (groupRuns t)).map formatTimeRange := by
  induction t with
  | nil =>
    intro cur acc
    simp [rangesLoop, groupRuns, mergeFirst]
  | cons x rest ih =>
    intro cur acc
    show (if x = cur.getLastD 0 + 1 then rangesLoop rest (cur ++ [x]) acc
          else rangesLoop rest [x] (acc ++ [formatTimeRange cur]))
        = acc ++ (mergeFirst cur (groupRuns (x :: rest))).map formatTimeRange
    have hgr : groupRuns (x :: rest) = mergeFirst [x] (groupRuns rest) := rfl
    split_ifs with hx
    · rw [ih (cur ++ [x]) acc, hgr, mergeFirst_append_last hx]
    · rw [ih [x] (acc ++ [formatTimeRange cur]), hgr, mergeFirst_not_last hx]
      simp

theorem sortedPeakHours_eq_nil_iff (history : List SchedulingHistory) :
    sortedPeakHours history = [] ↔ (history.filter (fun r => r.successful)).isEmpty := by
  unfold sortedPeakHours keysAsc successfulHours
  constructor
  · intro h
    have h0 := congrArg List.length h
    simp only [List.length_insertionSort, List.length_nil, List.length_eq_zero,
      List.dedup_eq_nil, List.map_eq_nil_iff] at h0
    rw [List.isEmpty_iff]
    exact h0
  · intro h
    rw [List.isEmpty_iff] at h
    rw [h]
    rfl

/-! Claim theorems. -/

/-- C1: for every candidate list and every `topN`, `recommend` returns
exactly `min(topN, length)` items, sorted non-increasingly by score; the
result is the `topN`-prefix of the stable descending sort of the scored
candidates, and any two equal-scored scored candidates keep their input
order in that sort; an empty candidate list yields an empty result. -/
theorem recommend_spec (st : RecommenderState) (slots : List RawSlot) (topN : Nat) :
    (recommend st slots topN).length = min topN slots.length
  ∧ (recommend st slots topN).Pairwise (fun a b => b.score ≤ a.score)
  ∧ recommend st slots topN
      = (List.insertionSort scoreDesc (slots.map (scoreSlot st))).take topN
  ∧ (∀ a b, [a, b].Sublist (slots.map (scoreSlot st)) → a.score = b.score →
      [a, b].Sublist (List.insertionSort scoreDesc (slots.map (scoreSlot st))))
  ∧ (slots = [] → recommend st slots topN = []) := by
  refine ⟨length_recommend st slots topN, sorted_recommend st slots topN,
    recommend_eq_take st slots topN, ?_, ?_⟩
  · intro a b hsub heq
    exact List.pair_sublist_insertionSort heq.ge hsub
  · intro h
    rw [h]
    rfl

/-- C1 witness: the empty-input clause of `recommend_spec`, instantiated. -/
theorem recommend_spec_witness : recommend stEmpty [] 5 = [] :=
  (recommend_spec stEmpty [] 5).2.2.2.2 rfl

/-- C2 counterexample: with `currentLoad = 20 > 10 = maxLoad`, which the
data model allows, the load-balance factor evaluates to `-1`, outside
`[0, 1]`. -/
theorem factor_range_counterexample :
    scoreLoadBalance overloadedSlot = -1
  ∧ (scoreSlot stEmpty overloadedSlot).factors.loadBalance = -1
  ∧ ¬ inUnit (scoreSlot stEmpty overloadedSlot).factors.loadBalance := by
  have h1 : scoreLoadBalance overloadedSlot = -1 := by
    norm_num [scoreLoadBalance, overloadedSlot]
  have h2 : (scoreSlot stEmpty overloadedSlot).factors.loadBalance = -1 := h1
  refine ⟨h1, h2, ?_⟩
  rw [h2]
  intro hu
  exact absurd hu.1 (by norm_num)

/-- C2 amended: when every supplied `loadInfo` satisfies
`currentLoad ≤ maxLoad` with a positive `maxLoad`, and satisfaction values
lie in the documented `[0, 5]`, every factor and every aggregate score of
every recommendation, and every learned confidence, lies in `[0, 1]`. -/
theorem scoring_in_unit (st : RecommenderState) (slots : List RawSlot) (topN : Nat)
    (u : String) (hist : List SchedulingHistory) (now : Nat)
    (hload : ∀ s ∈ slots, ∀ li, s.loadInfo = some li →
      li.currentLoad ≤ li.maxLoad ∧ 0 < li.maxLoad)
    (hsat : ∀ r ∈ st.history, ∀ q, r.satisfaction = some q → 0 ≤ q ∧ q ≤ 5) :
    (∀ rec ∈ recommend st slots topN,
        inUnit rec.score ∧ inUnit rec.factors.preferenceMatch
          ∧ inUnit rec.factors.loadBalance ∧ inUnit rec.factors.timeOfDay
          ∧ inUnit rec.factors.dayOfWeek ∧ inUnit rec.factors.pastSuccess
          ∧ inUnit rec.factors.participantSatisfaction)
  ∧ inUnit (learnPreferences u hist now).confidence := by
  constructor
  · intro rec hrec
    obtain ⟨s, hs, rfl⟩ := mem_recommend hrec
    obtain ⟨f1, f2, f3, f4, f5, f6⟩ := calculateFactors_inUnit st s (hload s hs) hsat
    exact ⟨weightedScore_inUnit f1 f2 f3 f4 f5 f6, f1, f2, f3, f4, f5, f6⟩
  · exact learn_confidence_inUnit u hist now

/-- C2 witness: the aggregate score of a concrete recommendation and a
concrete learned confidence, through `scoring_in_unit`. -/
theorem scoring_in_unit_witness :
    inUnit (scoreSlot stWitness healthySlot).score
  ∧ inUnit (learnPreferences ("w") [] 0).confidence := by
  have h := scoring_in_unit stWitness [healthySlot] 5 ("w") [] 0
    (by
      intro s hs li hli
      rw [List.mem_singleton] at hs
      subst hs
      simp only [healthySlot, Option.some.injEq] at hli
      subst hli
      exact ⟨by norm_num, by norm_num⟩)
    (by
      intro r hr q hq
      simp only [stWitness, List.mem_singleton] at hr
      subst hr
      simp only [Option.some.injEq] at hq
      subst hq
      exact ⟨by norm_num, by norm_num⟩)
  exact ⟨(h.1 (scoreSlot stWitness healthySlot) (by simp [recommend_eq_take])).1, h.2⟩

/-- C3: `detectConflicts` emits one double-booking conflict of severity 5,
listing the intersecting identifiers, for each existing booking that
strictly overlaps the proposed interval and shares participants with the
proposed slot's resources; an outside-hours conflict of severity 3
affecting all assigned resources exactly when the start hour is < 9 or
≥ 17; and no conflict of any other type. -/
theorem detectConflicts_spec (p : ProposedSlot) (sched : List ExistingBooking) :
    ((detectConflicts p sched).filter
        (fun c => decide (c.type = ConflictType.double_booking))).map
        (fun c => c.affectedParticipants)
      = (sched.filter (fun e =>
          checkTimeOverlap p.startTime p.endTime e.startTime e.endTime
            && decide (0 < (intersectIds p e).length))).map (fun e => intersectIds p e)
  ∧ (∀ c ∈ detectConflicts p sched, c.type = ConflictType.double_booking → c.severity = 5)
  ∧ ((∃ c ∈ detectConflicts p sched, c.type = ConflictType.outside_hours)
      ↔ (getHours p.startTime < 9 ∨ 17 ≤ getHours p.startTime))
  ∧ (∀ c ∈ detectConflicts p sched, c.type = ConflictType.outside_hours →
      c.severity = 3 ∧ c.affectedParticipants = p.interviewers)
  ∧ (∀ c ∈ detectConflicts p sched,
      c.type = ConflictType.double_booking ∨ c.type = ConflictType.outside_hours) := by
  rw [detectConflicts_eq]
  refine ⟨?_, ?_, ?_, ?_, ?_⟩
  · split_ifs with h <;>
      simp [List.filter_append, List.filter_map, Function.comp_def,
        doubleBookingConflict, outsideHoursConflict, List.map_map]
  · intro c hc htype
    rcases List.mem_append.mp hc with hmem | hmem
    · obtain ⟨e, _, rfl⟩ := List.mem_map.mp hmem
      rfl
    · by_cases hcond : getHours p.startTime < 9 ∨ 17 ≤ getHours p.startTime
      · rw [if_pos hcond] at hmem
        rw [List.mem_singleton.mp hmem] at htype
        exact absurd htype (by simp [outsideHoursConflict])
      · rw [if_neg hcond] at hmem
        simp at hmem
  · constructor
    · rintro ⟨c, hc, htype⟩
      rcases List.mem_append.mp hc with hmem | hmem
      · obtain ⟨e, _, rfl⟩ := List.mem_map.mp hmem
        exact absurd htype (by simp [doubleBookingConflict])
      · by_cases hcond : getHours p.startTime < 9 ∨ 17 ≤ getHours p.startTime
        · exact hcond
        · rw [if_neg hcond] at hmem
          simp at hmem
    · intro hcond
      refine ⟨outsideHoursConflict p, ?_, rfl⟩
      apply List.mem_append_right
      rw [if_pos hcond]
      exact List.mem_singleton_self _
  · intro c hc htype
    rcases List.mem_append.mp hc with hmem | hmem
    · obtain ⟨e, _, rfl⟩ := List.mem_map.mp hmem
      exact absurd htype (by simp [doubleBookingConflict])
    · by_cases hcond : getHours p.startTime < 9 ∨ 17 ≤ getHours p.startTime
      · rw [if_pos hcond] at hmem
        rw [List.mem_singleton.mp hmem]
        exact ⟨rfl, rfl⟩
      · rw [if_neg hcond] at hmem
        simp at hmem
  · intro c hc
    rcases List.mem_append.mp hc with hmem | hmem
    · obtain ⟨e, _, rfl⟩ := List.mem_map.mp hmem
      exact Or.inl rfl
    · by_cases hcond : getHours p.startTime < 9 ∨ 17 ≤ getHours p.startTime
      · rw [if_pos hcond] at hmem
        rw [List.mem_singleton.mp hmem]
        exact Or.inr rfl
      · rw [if_neg hcond] at hmem
        simp at hmem

/-- C3 witness: the double-booking emitted for a concrete overlapping
booking sharing one resource has severity 5. -/
theorem detectConflicts_spec_witness :
    (doubleBookingConflict proposedEarly bookingEarly).severity = 5 :=
  (detectConflicts_spec proposedEarly [bookingEarly]).2.1
    (doubleBookingConflict proposedEarly bookingEarly) (by decide) (by decide)

/-- C4 counterexample: an outside-hours conflict with no alternative pool
resolves to a resolution with zero suggestions, not 2–3. -/
theorem resolution_count_counterexample :
    (resolve stNone [cOutside] 0).map (fun r => r.suggestions.length) = [0] := by decide

/-- C4 amended: `resolve` returns exactly one resolution per input
conflict, each carrying at most 3 suggestions sorted by descending
confidence (a lower bound of 2 does not hold: outside-hours, holiday and
preference-violation conflicts can yield 0 or 1); empty input yields
empty output. -/
theorem resolve_spec (st : ResolverState) (cs : List Conflict) (now : Nat) :
    (resolve st cs now).length = cs.length
  ∧ (∀ r ∈ resolve st cs now, r.suggestions.length ≤ 3
      ∧ r.suggestions.Pairwise (fun a b => b.confidence ≤ a.confidence))
  ∧ resolve st [] now = [] := by
  refine ⟨length_resolve st cs now, ?_, rfl⟩
  intro r hr
  rw [resolve_eq_map] at hr
  obtain ⟨c, _, rfl⟩ := List.mem_map.mp hr
  exact ⟨resolveConflict_suggestions_le st now c, resolveConflict_suggestions_sorted st now c⟩

/-- C4 witness: the resolution of a concrete double-booking conflict has
at most 3 suggestions, through `resolve_spec`. -/
theorem resolve_spec_witness :
    (resolveConflict stNone 0 cDouble).suggestions.length ≤ 3 :=
  ((resolve_spec stNone [cDouble] 0).2.1 (resolveConflict stNone 0 cDouble)
    (by simp [resolve_eq_map])).1

/-- C5 counterexample: confidence is not monotone in history length across
the empty/non-empty boundary: the empty history yields 0.3 while a
one-record history yields 1/20 < 0.3. -/
theorem confidence_monotone_counterexample :
    (learnPreferences ("u") [] 0).confidence = 0.3
  ∧ (learnPreferences ("u") [histRecord 9] 0).confidence = 1/20
  ∧ ¬ ((learnPreferences ("u") [] 0).confidence
        ≤ (learnPreferences ("u") [histRecord 9] 0).confidence) := by
  have h1 : (learnPreferences ("u") [] 0).confidence = 0.3 := rfl
  have h2 : (learnPreferences ("u") [histRecord 9] 0).confidence = 1/20 := by
    rw [learn_confidence_nonempty _ _ _ (by simp)]
    simp only [List.length_cons, List.length_nil]
    rw [min_eq_left (by norm_num)]
    norm_num
  refine ⟨h1, h2, ?_⟩
  rw [h1, h2]
  norm_num

/-- C5 amended: among non-empty histories the learned confidence is
monotone non-decreasing in history length; it equals `min(len/20, 1)` on
non-empty history, and the empty history yields the default 0.3. -/
theorem confidence_monotone_spec (u1 u2 : String) (h1 h2 : List SchedulingHistory)
    (n1 n2 : Nat) (hne : h1 ≠ []) (hlen : h1.length ≤ h2.length) :
    (learnPreferences u1 h1 n1).confidence ≤ (learnPreferences u2 h2 n2).confidence
  ∧ (learnPreferences u1 h1 n1).confidence = min ((h1.length : ℚ) / 20) 1
  ∧ (learnPreferences u1 [] n1).confidence = 0.3 := by
  have hne2 : h2 ≠ [] := by
    intro hh
    apply hne
    rw [hh] at hlen
    exact List.length_eq_zero.mp (Nat.le_zero.mp hlen)
  rw [learn_confidence_nonempty u1 h1 n1 hne, learn_confidence_nonempty u2 h2 n2 hne2]
  refine ⟨min_le_min ?_ le_rfl, rfl, rfl⟩
  have hcast : (h1.length : ℚ) ≤ (h2.length : ℚ) := by exact_mod_cast hlen
  exact (div_le_div_iff_of_pos_right (by norm_num : (0 : ℚ) < 20)).mpr hcast

/-- C5 witness: monotonicity between two concrete non-empty histories. -/
theorem confidence_monotone_spec_witness :
    (learnPreferences ("a") [histRecord 9] 0).confidence
      ≤ (learnPreferences ("b") [histRecord 9, histRecord 10] 1).confidence :=
  (confidence_monotone_spec ("a") ("b") [histRecord 9] [histRecord 9, histRecord 10] 0 1
    (by simp) (by simp)).1

/-- C6 counterexample: for hours {9 once, 10 twice} the code merges runs
in descending-frequency order and returns two ranges, while the claim's
algorithm (re-sort ascending, merge, top by total frequency) returns the
single range 09:00–11:00. -/
theorem preferredTimes_counterexample :
    analyzePreferredTimes histNineTenTen
        = [{ start := ("10:00"), stop := ("11:00") },
           { start := ("09:00"), stop := ("10:00") }]
  ∧ claimedPreferredTimes histNineTenTen = [{ start := ("09:00"), stop := ("11:00") }]
  ∧ analyzePreferredTimes histNineTenTen ≠ claimedPreferredTimes histNineTenTen := by decide

/-- C6 amended: the preferred time ranges are computed by counting
occurrences per hour among successful records, ordering the hours by
descending frequency (ties by ascending hour), splitting that sequence —
in that order, without re-sorting — into maximal runs of consecutively
increasing hours, formatting each run as a range from its least hour to
its greatest hour plus one, and returning the first three ranges in
construction order; with no successful records the result is the single
range 09:00–17:00. -/
theorem preferredTimes_spec (history : List SchedulingHistory) :
    analyzePreferredTimes history =
      if (history.filter (fun r => r.successful)).isEmpty
      then [{ start := ("09:00"), stop := ("17:00") }]
      else ((groupRuns (sortedPeakHours history)).map formatTimeRange).take 3 := by
  unfold analyzePreferredTimes
  cases hs : sortedPeakHours history with
  | nil =>
    rw [if_pos ((sortedPeakHours_eq_nil_iff history).mp hs)]
  | cons x rest =>
    have hne : ¬ (history.filter (fun r => r.successful)).isEmpty = true := by
      intro hemp
      have h0 := (sortedPeakHours_eq_nil_iff history).mpr hemp
      rw [hs] at h0
      simp at h0
    rw [if_neg hne]
    dsimp only
    rw [rangesLoop_eq rest [x] [], List.nil_append]
    rfl

/-- C7 counterexample: a malformed slot (`endTime < startTime`) raises no
validation error — it is scored and returned. -/
theorem recommend_malformed_counterexample :
    (recommend stEmpty [badSlot] 5).map (fun r => r.slotId) = [("bad")]
  ∧ (recommend stEmpty [badSlot] 5).length = 1 := by decide

/-- C7 amended: `recommend` performs no interval validation: even when
the candidate list contains a slot with `end ≤ start`, it returns
`min(topN, length)` scored items rather than raising. -/
theorem recommend_no_validation (st : RecommenderState) (slots : List RawSlot) (topN : Nat)
    (_hmal : ∃ s ∈ slots, s.endTime ≤ s.startTime) :
    (recommend st slots topN).length = min topN slots.length :=
  length_recommend st slots topN

/-- C7 witness: `recommend_no_validation` at a concrete malformed slot. -/
theorem recommend_no_validation_witness :
    (recommend stEmpty [badSlot] 5).length = min 5 1 :=
  recommend_no_validation stEmpty [badSlot] 5 ⟨badSlot, by simp, by decide⟩

/-- C8: a conflict of a type with no applicable alternatives — here an
outside-hours conflict whose pool holds no slot inside work hours —
resolves without error to a resolution with an empty suggestions list. -/
theorem resolve_no_alternatives (st : ResolverState) (c : Conflict) (now : Nat)
    (htype : c.type = ConflictType.outside_hours)
    (hno : (st.availableSlots.getD []).filter withinWorkHours = []) :
    resolve st [c] now =
      [{ conflictType := c.type, description := c.description,
         affectedParticipants := c.affectedParticipants,
         suggestions := [], severity := c.severity }] := by
  have hout : resolveOutsideHours st c = [] := by
    rcases hslots : st.availableSlots with _ | slots
    · simp [resolveOutsideHours, hslots]
    · rw [hslots] at hno
      simp only [Option.getD_some] at hno
      simp [resolveOutsideHours, hslots, hno]
  have hgen : generateSuggestions st now c = [] := by
    simp only [generateSuggestions, htype, hout]
    split_ifs <;> simp [getLLMSuggestions]
  rw [resolve_eq_map]
  simp only [List.map_cons, List.map_nil]
  unfold resolveConflict
  rw [hgen]
  rfl

/-- C8 witness: `resolve_no_alternatives` at a concrete conflict and an
absent pool. -/
theorem resolve_no_alternatives_witness :
    resolve stNone [cOutside] 0 =
      [{ conflictType := ConflictType.outside_hours, description := ("late"),
         affectedParticipants := [("alice")], suggestions := [], severity := 3 }] :=
  resolve_no_alternatives stNone cOutside 0 rfl rfl

set_option maxRecDepth 4000

/-- C9 counterexample: equal explicit inputs but different clock readings
give different outputs: the load-exceeded rule filters alternatives
against `now + 7 days`, and `learn` stamps the clock into `updatedAt`. -/
theorem purity_counterexample :
    (resolve stLoad [cLoad] 0).map (fun r => r.suggestions.length) = [3]
  ∧ (resolve stLoad [cLoad] 20000).map (fun r => r.suggestions.length) = [2]
  ∧ resolve stLoad [cLoad] 0 ≠ resolve stLoad [cLoad] 20000
  ∧ (learnPreferences ("u") [histRecord 9] 0).updatedAt
      ≠ (learnPreferences ("u") [histRecord 9] 1).updatedAt := by
  have h1 : (resolve stLoad [cLoad] 0).map (fun r => r.suggestions.length) = [3] := by
    rw [resolve_eq_map]
    simp only [List.map_cons, List.map_nil, resolveConflict_suggestions_length]
    simp [generateSuggestions, resolveLoadExceeded, stLoad, cLoad, altSlot]
  have h2 : (resolve stLoad [cLoad] 20000).map (fun r => r.suggestions.length) = [2] := by
    rw [resolve_eq_map]
    simp only [List.map_cons, List.map_nil, resolveConflict_suggestions_length]
    simp [generateSuggestions, resolveLoadExceeded, stLoad, cLoad, altSlot]
  have h3 : (learnPreferences ("u") [histRecord 9] 0).updatedAt = 0 := rfl
  have h4 : (learnPreferences ("u") [histRecord 9] 1).updatedAt = 1 := rfl
  refine ⟨h1, h2, ?_, ?_⟩
  · intro heq
    rw [heq] at h1
    rw [h1] at h2
    exact absurd h2 (by decide)
  · intro heq
    rw [h3, h4] at heq
    exact absurd heq (by omega)

/-- C9 amended: the algorithms are deterministic in their explicit inputs
and the clock; `recommend` and `detectConflicts` read no clock at all,
`learnPreferences` depends on it only through the `updatedAt` stamp, and
`resolve` only through the load-exceeded next-week filter — on conflict
lists free of load-exceeded conflicts it is clock-independent. -/
theorem purity_spec (u : String) (h : List SchedulingHistory) (n1 n2 : Nat)
    (st : ResolverState) (cs : List Conflict)
    (hnl : ∀ c ∈ cs, c.type ≠ ConflictType.load_exceeded) :
    eraseUpdatedAt (learnPreferences u h n1) = eraseUpdatedAt (learnPreferences u h n2)
  ∧ resolve st cs n1 = resolve st cs n2 := by
  refine ⟨learn_erase_now u h n1 n2, ?_⟩
  rw [resolve_eq_map, resolve_eq_map]
  exact List.map_congr_left fun c hc => resolveConflict_now_independent st n1 n2 c (hnl c hc)

/-- C9 witness: `purity_spec` at concrete inputs. -/
theorem purity_spec_witness :
    eraseUpdatedAt (learnPreferences ("u") [] 3) = eraseUpdatedAt (learnPreferences ("u") [] 4) :=
  (purity_spec ("u") [] 3 4 stNone [cOutside] (by decide)).1

/-- C10: every resolution carries its conflict's type, description,
affected participants and severity through unchanged; only the
suggestions list is newly computed. -/
theorem resolve_preserves_fields (st : ResolverState) (cs : List Conflict) (now : Nat) :
    (resolve st cs now).map
        (fun r => (r.conflictType, r.description, r.affectedParticipants, r.severity))
      = cs.map (fun c => (c.type, c.description, c.affectedParticipants, c.severity)) := by
  rw [resolve_eq_map, List.map_map]
  rfl

end Sched
